import Mathlib

/-!
Shallow embedding of the todo_app backend (src/backend/main.py) and proofs
about its request handlers, storage invariants and startup retry logic.

The persistence layer is modelled as a list of rows in insertion order
together with the `nextId` counter of the `id` primary-key sequence
(PostgreSQL SERIAL: starts at 1 and never goes back).  Each handler is a
pure function from its inputs and the current database state to either an
`HTTPException` (mirroring `raise HTTPException(...)` in the source) or a
response paired with the new state.  A failed handler leaves the state
unchanged, mirroring `db.rollback()` on every error path.
-/

namespace TodoApp

/-- Python `str.strip()` on a list of characters: drop whitespace from both
ends.  Only the leading/trailing whitespace behaviour matters here. -/
def pyStrip (s : List Char) : List Char :=
  ((s.dropWhile Char.isWhitespace).reverse.dropWhile Char.isWhitespace).reverse

/-- A row of the `todos` table (`class TodoDB` in main.py):
`id` integer primary key, `text` string, `completed` boolean (non-null). -/
structure TodoDB where
  id : Nat
  text : List Char
  completed : Bool
deriving Repr, DecidableEq

/-- `raise HTTPException(status_code=..., detail=...)` in the handlers. -/
structure HTTPError where
  status_code : Nat
  detail : String
deriving Repr, DecidableEq

/-- The database state: stored rows in insertion order plus the value the
`id` sequence will hand out next. -/
structure DB where
  todos : List TodoDB
  nextId : Nat
deriving Repr, DecidableEq

/-- A fresh database: no rows, the serial sequence starts at 1. -/
def emptyDB : DB := ⟨[], 1⟩

/-- The `TodoUpdate` pydantic model: both fields optional. -/
structure TodoUpdate where
  text : Option (List Char) := none
  completed : Option Bool := none
deriving Repr, DecidableEq

/-- `db.query(TodoDB).filter(TodoDB.id == todo_id).first()`. -/
def firstById (i : Nat) (db : DB) : Option TodoDB :=
  db.todos.find? (fun t => t.id == i)

/-- Replace the first row satisfying `p` (the row returned by `.first()`,
mutated in place by the update handler). -/
def setFirst (p : TodoDB → Bool) (x : TodoDB) : List TodoDB → List TodoDB
  | [] => []
  | t :: ts => if p t then x :: ts else t :: setFirst p x ts

/-- Remove the first row satisfying `p` (`db.delete(todo)` for the row
returned by `.first()`). -/
def eraseFirst (p : TodoDB → Bool) : List TodoDB → List TodoDB
  | [] => []
  | t :: ts => if p t then ts else t :: eraseFirst p ts

/-- `GET /todos` (`get_todos`): return all rows. -/
def get_todos (db : DB) : List TodoDB := db.todos

/-- `POST /todos` (`create_todo`): reject empty-after-strip text (400) and
stripped text longer than 500 characters (400); otherwise insert a row with
the stripped text, `completed=False` and the next serial id, and return it. -/
def create_todo (t : List Char) (db : DB) : Except HTTPError (TodoDB × DB) :=
  if t.isEmpty || (pyStrip t).isEmpty then
    .error ⟨400, "Todo text cannot be empty"⟩
  else if 500 < (pyStrip t).length then
    .error ⟨400, "Todo text cannot exceed 500 characters"⟩
  else
    let row : TodoDB := ⟨db.nextId, pyStrip t, false⟩
    .ok (row, ⟨db.todos ++ [row], db.nextId + 1⟩)

/-- `GET /todos/{todo_id}` (`get_todo`): the row with that id, or 404. -/
def get_todo (i : Nat) (db : DB) : Except HTTPError TodoDB :=
  match firstById i db with
  | none => .error ⟨404, "Todo not found"⟩
  | some t => .ok t

/-- The field mutations of `update_todo` applied to the fetched row: if
`text` is supplied it is validated (400 on empty / over-500 after strip)
and stored stripped; if `completed` is supplied it is stored as given. -/
def applyUpdate (u : TodoUpdate) (row : TodoDB) : Except HTTPError TodoDB :=
  match u.text with
  | some s =>
    if (pyStrip s).isEmpty then
      .error ⟨400, "Todo text cannot be empty"⟩
    else if 500 < (pyStrip s).length then
      .error ⟨400, "Todo text cannot exceed 500 characters"⟩
    else
      let row1 : TodoDB := { row with text := pyStrip s }
      .ok (match u.completed with
           | some b => { row1 with completed := b }
           | none => row1)
  | none =>
    .ok (match u.completed with
         | some b => { row with completed := b }
         | none => row)

/-- `PUT /todos/{todo_id}` (`update_todo`): 404 if the id is absent,
otherwise mutate the fetched row in place with the supplied fields. -/
def update_todo (i : Nat) (u : TodoUpdate) (db : DB) :
    Except HTTPError (TodoDB × DB) :=
  match firstById i db with
  | none => .error ⟨404, "Todo not found"⟩
  | some row =>
    match applyUpdate u row with
    | .error e => .error e
    | .ok row1 =>
      .ok (row1, ⟨setFirst (fun t => t.id == i) row1 db.todos, db.nextId⟩)

/-- `DELETE /todos/{todo_id}` (`delete_todo`): 404 if the id is absent,
otherwise remove the row and return the confirmation message. -/
def delete_todo (i : Nat) (db : DB) : Except HTTPError (String × DB) :=
  match firstById i db with
  | none => .error ⟨404, "Todo not found"⟩
  | some _ =>
    .ok ("Todo deleted successfully",
         ⟨eraseFirst (fun t => t.id == i) db.todos, db.nextId⟩)

/-- A mutating request. -/
inductive Op
  | create (t : List Char)
  | update (i : Nat) (u : TodoUpdate)
  | delete (i : Nat)
deriving Repr, DecidableEq

/-- The state after a request: the new state on success, the old state on
any error (every handler rolls back before re-raising). -/
def applyOp : Op → DB → DB
  | .create t, db =>
    match create_todo t db with
    | .ok (_, db1) => db1
    | .error _ => db
  | .update i u, db =>
    match update_todo i u db with
    | .ok (_, db1) => db1
    | .error _ => db
  | .delete i, db =>
    match delete_todo i db with
    | .ok (_, db1) => db1
    | .error _ => db

/-- Whether a request succeeds (returns a 200 response) on this state. -/
def opOk : Op → DB → Bool
  | .create t, db => (create_todo t db).isOk
  | .update i u, db => (update_todo i u db).isOk
  | .delete i, db => (delete_todo i db).isOk

/-- Run a sequence of requests, threading the state. -/
def runOps (ops : List Op) (db : DB) : DB :=
  ops.foldl (fun d o => applyOp o d) db

/-- Every request in the sequence succeeds on the state it runs against. -/
def allOk : List Op → DB → Bool
  | [], _ => true
  | op :: ops, db => opOk op db && allOk ops (applyOp op db)

def isCreate : Op → Bool
  | .create _ => true
  | _ => false

def isDelete : Op → Bool
  | .delete _ => true
  | _ => false

/-- The storage invariant: the sequence is ahead of every stored id, ids
are positive and pairwise distinct, and every stored text is non-empty and
at most 500 characters.  (`completed` is a Lean `Bool`, so "defined, never
null" is carried by the type itself.) -/
def Inv (db : DB) : Prop :=
  0 < db.nextId ∧
  (∀ t ∈ db.todos, 0 < t.id ∧ t.id < db.nextId) ∧
  db.todos.Pairwise (fun a b => a.id ≠ b.id) ∧
  (∀ t ∈ db.todos, t.text ≠ [] ∧ t.text.length ≤ 500)

instance (db : DB) : Decidable (Inv db) := by
  unfold Inv; infer_instance

end TodoApp

namespace TodoApp

/-- `get_db`, the per-request session dependency: `attemptOk k` tells
whether the `k`-th session acquisition (`SessionLocal()` plus the
`SELECT 1` probe) succeeds.  Returns the number of attempts performed and
whether a session was finally yielded (`false` = the 503 is raised). -/
def getDbGo (attemptOk : Nat → Bool) : Nat → Nat → Nat × Bool
  | 0, _ => (0, false)
  | remaining + 1, k =>
    if attemptOk k then (1, true)
    else if remaining = 0 then (1, false)
    else
      let r := getDbGo attemptOk remaining (k + 1)
      (r.1 + 1, r.2)

/-- `get_db` with its hard-coded `max_retries = 3`. -/
def get_db (attemptOk : Nat → Bool) : Nat × Bool := getDbGo attemptOk 3 0

/-- `init_database`: `outcome k` tells whether the `k`-th connection
attempt (engine creation plus `SELECT 1`) succeeds.  Returns the list of
`time.sleep` delays performed (in seconds, as rationals) and whether an
engine was returned (`false` = the final `raise`). -/
def initGo (outcome : Nat → Bool) : Nat → ℚ → Nat → List ℚ × Bool
  | 0, _, _ => ([], false)
  | remaining + 1, delay, k =>
    if outcome k then ([], true)
    else if remaining = 0 then ([], false)
    else
      let r := initGo outcome remaining (min (delay * (3 / 2)) 30) (k + 1)
      (delay :: r.1, r.2)

/-- `init_database` with its defaults `max_retries=10, delay=2`. -/
def init_database (outcome : Nat → Bool) : List ℚ × Bool :=
  initGo outcome 10 2 0

/-- The delay before the `n`-th retry: starts at 2, multiplied by 1.5
after each failed attempt, capped at 30. -/
def delaySeq : Nat → ℚ
  | 0 => 2
  | n + 1 => min (delaySeq n * (3 / 2)) 30

/-! ### Helper lemmas about the list primitives -/

lemma find?_append_none {α : Type} {p : α → Bool} {l₁ l₂ : List α}
    (h : l₁.find? p = none) : (l₁ ++ l₂).find? p = l₂.find? p := by
  induction l₁ with
  | nil => rfl
  | cons a l ih =>
    cases hp : p a with
    | true => simp [List.find?, hp] at h
    | false =>
      simp only [List.find?, hp] at h
      simpa [List.find?, hp] using ih h

lemma setFirst_length (p : TodoDB → Bool) (x : TodoDB) (l : List TodoDB) :
    (setFirst p x l).length = l.length := by
  induction l with
  | nil => rfl
  | cons a l ih =>
    cases hp : p a <;> simp [setFirst, hp, ih]

lemma mem_setFirst {p : TodoDB → Bool} {x : TodoDB} {l : List TodoDB}
    {b : TodoDB} (hb : b ∈ setFirst p x l) :
    b ∈ l ∨ (b = x ∧ ∃ r ∈ l, p r = true) := by
  induction l with
  | nil => simp [setFirst] at hb
  | cons a l ih =>
    cases hp : p a with
    | true =>
      simp only [setFirst, hp, if_true, List.mem_cons] at hb
      rcases hb with rfl | hb
      · exact Or.inr ⟨rfl, a, List.mem_cons_self a l, hp⟩
      · exact Or.inl (List.mem_cons_of_mem _ hb)
    | false =>
      simp only [setFirst, hp, Bool.false_eq_true, if_false, List.mem_cons] at hb
      rcases hb with rfl | hb
      · exact Or.inl (List.mem_cons_self b l)
      · rcases ih hb with h | ⟨rfl, r, hr, hpr⟩
        · exact Or.inl (List.mem_cons_of_mem _ h)
        · exact Or.inr ⟨rfl, r, List.mem_cons_of_mem _ hr, hpr⟩

lemma pairwise_setFirst {x : TodoDB} {i : Nat} {l : List TodoDB}
    (hx : x.id = i)
    (h : l.Pairwise (fun a b => a.id ≠ b.id)) :
    (setFirst (fun t => t.id == i) x l).Pairwise (fun a b => a.id ≠ b.id) := by
  induction l with
  | nil => exact h
  | cons a l ih =>
    rw [List.pairwise_cons] at h
    cases hp : (a.id == i) with
    | true =>
      simp only [setFirst, hp, if_true, List.pairwise_cons]
      refine ⟨fun b hb => ?_, h.2⟩
      have hai : a.id = i := eq_of_beq hp
      rw [hx, ← hai]
      exact h.1 b hb
    | false =>
      simp only [setFirst, hp, Bool.false_eq_true, if_false, List.pairwise_cons]
      refine ⟨fun b hb => ?_, ih h.2⟩
      rcases mem_setFirst hb with hbl | ⟨rfl, r, hr, hpr⟩
      · exact h.1 b hbl
      · have hri : r.id = i := eq_of_beq hpr
        rw [hx, ← hri]
        exact h.1 r hr

lemma filter_setFirst {x : TodoDB} {i : Nat} {l : List TodoDB}
    (hx : x.id = i) :
    (setFirst (fun t => t.id == i) x l).filter (fun t => !(t.id == i)) =
      l.filter (fun t => !(t.id == i)) := by
  induction l with
  | nil => rfl
  | cons a l ih =>
    cases hp : (a.id == i) with
    | true => simp [setFirst, hp, List.filter_cons, hx]
    | false => simp [setFirst, hp, List.filter_cons, ih]

lemma find?_setFirst {x : TodoDB} {i : Nat} {l : List TodoDB} {r : TodoDB}
    (hx : x.id = i)
    (hfound : l.find? (fun t => t.id == i) = some r) :
    (setFirst (fun t => t.id == i) x l).find? (fun t => t.id == i) = some x := by
  induction l with
  | nil => simp at hfound
  | cons a l ih =>
    cases hp : (a.id == i) with
    | true => simp [setFirst, List.find?, hp, hx]
    | false =>
      simp only [List.find?, hp] at hfound
      simp only [setFirst, hp, Bool.false_eq_true, if_false, List.find?]
      exact ih hfound

lemma eraseFirst_sublist (p : TodoDB → Bool) (l : List TodoDB) :
    (eraseFirst p l).Sublist l := by
  induction l with
  | nil => exact List.Sublist.refl _
  | cons a l ih =>
    cases hp : p a with
    | true =>
      simp only [eraseFirst, hp, if_true]
      exact List.sublist_cons_of_sublist a (List.Sublist.refl l)
    | false =>
      simp only [eraseFirst, hp, Bool.false_eq_true, if_false]
      exact List.Sublist.cons₂ a ih

lemma eraseFirst_length {p : TodoDB → Bool} {l : List TodoDB} {r : TodoDB}
    (hfound : l.find? p = some r) :
    (eraseFirst p l).length + 1 = l.length := by
  induction l with
  | nil => simp at hfound
  | cons a l ih =>
    cases hp : p a with
    | true => simp [eraseFirst, hp]
    | false =>
      simp only [List.find?, hp] at hfound
      simp only [eraseFirst, hp, Bool.false_eq_true, if_false, List.length_cons]
      rw [ih hfound]

lemma pyStrip_nil : pyStrip [] = [] := rfl

lemma isEmpty_false_of_ne_nil {t : List Char} (h : t ≠ []) :
    t.isEmpty = false := by
  cases t with
  | nil => exact absurd rfl h
  | cons a s => rfl

lemma ne_nil_of_pyStrip_ne_nil {t : List Char} (h : pyStrip t ≠ []) :
    t ≠ [] := by
  intro h0
  rw [h0] at h
  exact h pyStrip_nil

lemma filter_eraseFirst {i : Nat} {l : List TodoDB} :
    (eraseFirst (fun t => t.id == i) l).filter (fun t => !(t.id == i)) =
      l.filter (fun t => !(t.id == i)) := by
  induction l with
  | nil => rfl
  | cons a l ih =>
    cases hp : (a.id == i) with
    | true => simp [eraseFirst, hp, List.filter_cons]
    | false => simp [eraseFirst, hp, List.filter_cons, ih]

lemma mem_eraseFirst_id {i : Nat} {l : List TodoDB}
    (hdist : l.Pairwise (fun a b => a.id ≠ b.id)) :
    ∀ t ∈ eraseFirst (fun t => t.id == i) l, t.id ≠ i := by
  induction l with
  | nil => intro t ht; simp [eraseFirst] at ht
  | cons a l ih =>
    rw [List.pairwise_cons] at hdist
    intro t ht
    cases hp : (a.id == i) with
    | true =>
      simp only [eraseFirst, hp, if_true] at ht
      have hai : a.id = i := eq_of_beq hp
      rw [← hai]
      exact fun hti => hdist.1 t ht hti.symm
    | false =>
      simp only [eraseFirst, hp, Bool.false_eq_true, if_false, List.mem_cons] at ht
      rcases ht with rfl | ht
      · simpa using hp
      · exact ih hdist.2 t ht

/-! ### Inversion lemmas for successful handler calls -/

lemma create_todo_ok {t : List Char} {db : DB} {row : TodoDB} {db1 : DB}
    (h : create_todo t db = .ok (row, db1)) :
    row = ⟨db.nextId, pyStrip t, false⟩ ∧
    db1 = ⟨db.todos ++ [⟨db.nextId, pyStrip t, false⟩], db.nextId + 1⟩ ∧
    pyStrip t ≠ [] ∧ (pyStrip t).length ≤ 500 := by
  unfold create_todo at h
  by_cases h1 : (t.isEmpty || (pyStrip t).isEmpty) = true
  · rw [if_pos h1] at h
    simp at h
  · rw [if_neg h1] at h
    by_cases h2 : 500 < (pyStrip t).length
    · rw [if_pos h2] at h
      simp at h
    · rw [if_neg h2] at h
      simp only [Except.ok.injEq, Prod.mk.injEq] at h
      have hne : pyStrip t ≠ [] := by
        intro h0
        exact h1 (by simp [h0])
      exact ⟨h.1.symm, h.2.symm, hne, Nat.not_lt.mp h2⟩

lemma applyUpdate_spec {u : TodoUpdate} {row row1 : TodoDB}
    (h : applyUpdate u row = .ok row1) :
    row1.id = row.id ∧
    (u.text = none → row1.text = row.text) ∧
    (∀ s, u.text = some s →
      row1.text = pyStrip s ∧ pyStrip s ≠ [] ∧ (pyStrip s).length ≤ 500) ∧
    (u.completed = none → row1.completed = row.completed) ∧
    (∀ b, u.completed = some b → row1.completed = b) := by
  unfold applyUpdate at h
  cases hut : u.text with
  | none =>
    rw [hut] at h
    cases huc : u.completed with
    | none =>
      rw [huc] at h
      simp only [Except.ok.injEq] at h
      subst h
      simp [hut, huc]
    | some b =>
      rw [huc] at h
      simp only [Except.ok.injEq] at h
      subst h
      simp [hut, huc]
  | some s =>
    rw [hut] at h
    dsimp only at h
    by_cases h1 : ((pyStrip s).isEmpty = true)
    · rw [if_pos h1] at h
      simp at h
    · rw [if_neg h1] at h
      by_cases h2 : 500 < (pyStrip s).length
      · rw [if_pos h2] at h
        simp at h
      · rw [if_neg h2] at h
        have hne : pyStrip s ≠ [] := by
          intro h0
          exact h1 (by simp [h0])
        cases huc : u.completed with
        | none =>
          rw [huc] at h
          simp only [Except.ok.injEq] at h
          subst h
          refine ⟨rfl, ?_, ?_, fun _ => rfl, ?_⟩
          · intro he
            cases he
          · intro s1 he
            injection he with he
            subst he
            exact ⟨rfl, hne, Nat.not_lt.mp h2⟩
          · intro b hb
            cases hb
        | some b =>
          rw [huc] at h
          simp only [Except.ok.injEq] at h
          subst h
          refine ⟨rfl, ?_, ?_, ?_, ?_⟩
          · intro he
            cases he
          · intro s1 he
            injection he with he
            subst he
            exact ⟨rfl, hne, Nat.not_lt.mp h2⟩
          · intro hc
            cases hc
          · intro b1 hb
            cases hb
            rfl

lemma update_todo_ok {i : Nat} {u : TodoUpdate} {db : DB} {row1 : TodoDB}
    {db1 : DB} (h : update_todo i u db = .ok (row1, db1)) :
    ∃ row, firstById i db = some row ∧
      applyUpdate u row = .ok row1 ∧
      db1 = ⟨setFirst (fun t => t.id == i) row1 db.todos, db.nextId⟩ := by
  unfold update_todo at h
  cases hfound : firstById i db with
  | none =>
    rw [hfound] at h
    simp at h
  | some row =>
    rw [hfound] at h
    dsimp only at h
    cases happ : applyUpdate u row with
    | error e =>
      rw [happ] at h
      simp at h
    | ok row1' =>
      rw [happ] at h
      simp only [Except.ok.injEq, Prod.mk.injEq] at h
      obtain ⟨h1, h2⟩ := h
      subst h1
      exact ⟨row, rfl, happ, h2.symm⟩

lemma delete_todo_ok {i : Nat} {db : DB} {msg : String} {db1 : DB}
    (h : delete_todo i db = .ok (msg, db1)) :
    ∃ row, firstById i db = some row ∧
      msg = "Todo deleted successfully" ∧
      db1 = ⟨eraseFirst (fun t => t.id == i) db.todos, db.nextId⟩ := by
  unfold delete_todo at h
  cases hfound : firstById i db with
  | none =>
    rw [hfound] at h
    simp at h
  | some row =>
    rw [hfound] at h
    dsimp only at h
    simp only [Except.ok.injEq, Prod.mk.injEq] at h
    exact ⟨row, rfl, h.1.symm, h.2.symm⟩

/-! ### Claim theorems -/

/-- C1: for every text that is non-empty and at most 500 characters after
trimming, `create_todo` succeeds with a row whose `completed` is `false`,
whose id is the freshly assigned positive serial value, and a subsequent
`get_todo` with that id returns the identical row. -/
theorem create_then_get_roundtrip (db : DB) (t : List Char)
    (hbound : ∀ r ∈ db.todos, r.id < db.nextId)
    (hpos : 0 < db.nextId)
    (hne : pyStrip t ≠ [])
    (hlen : (pyStrip t).length ≤ 500) :
    ∃ row db1,
      create_todo t db = .ok (row, db1) ∧
      row.completed = false ∧
      0 < row.id ∧
      row.text = pyStrip t ∧
      get_todo row.id db1 = .ok row := by
  have ht : t.isEmpty = false := isEmpty_false_of_ne_nil (ne_nil_of_pyStrip_ne_nil hne)
  have hs : (pyStrip t).isEmpty = false := isEmpty_false_of_ne_nil hne
  refine ⟨⟨db.nextId, pyStrip t, false⟩,
          ⟨db.todos ++ [⟨db.nextId, pyStrip t, false⟩], db.nextId + 1⟩,
          ?_, rfl, hpos, rfl, ?_⟩
  · unfold create_todo
    rw [ht, hs]
    simp [Nat.not_lt.mpr hlen]
  · have hnone : db.todos.find? (fun r => r.id == db.nextId) = none := by
      rw [List.find?_eq_none]
      intro r hr
      simp only [beq_iff_eq]
      exact Nat.ne_of_lt (hbound r hr)
    unfold get_todo firstById
    simp only
    rw [find?_append_none hnone]
    simp [List.find?]

/-- C1 witness: creating "Buy milk" in the fresh database. -/
theorem create_then_get_roundtrip_witness :
    (∀ r ∈ emptyDB.todos, r.id < emptyDB.nextId) ∧
    0 < emptyDB.nextId ∧
    pyStrip ("Buy milk".data) ≠ [] ∧
    (pyStrip ("Buy milk".data)).length ≤ 500 ∧
    (∃ row db1,
      create_todo ("Buy milk".data) emptyDB = .ok (row, db1) ∧
      row.completed = false ∧
      0 < row.id ∧
      row.text = pyStrip ("Buy milk".data) ∧
      get_todo row.id db1 = .ok row) :=
  ⟨by simp [emptyDB], by decide, by decide, by decide,
   create_then_get_roundtrip emptyDB ("Buy milk".data)
     (by simp [emptyDB]) (by decide) (by decide) (by decide)⟩

/-- C4: empty or whitespace-only text (empty after stripping) is rejected
with a 400 and the stored rows are unchanged. -/
theorem create_empty_text_rejected (db : DB) (t : List Char)
    (h : pyStrip t = []) :
    create_todo t db = .error ⟨400, "Todo text cannot be empty"⟩ ∧
    applyOp (Op.create t) db = db := by
  have hs : (pyStrip t).isEmpty = true := by rw [h]; rfl
  have hc : create_todo t db = .error ⟨400, "Todo text cannot be empty"⟩ := by
    unfold create_todo
    rw [hs]
    simp
  refine ⟨hc, ?_⟩
  simp only [applyOp]
  rw [hc]

/-- C4 witness: a whitespace-only text on the fresh database. -/
theorem create_empty_text_rejected_witness :
    pyStrip [' ', '\t'] = [] ∧
    (create_todo [' ', '\t'] emptyDB = .error ⟨400, "Todo text cannot be empty"⟩ ∧
     applyOp (Op.create [' ', '\t']) emptyDB = emptyDB) :=
  ⟨by decide, create_empty_text_rejected emptyDB [' ', '\t'] (by decide)⟩

set_option maxRecDepth 100000 in
/-- C5 counterexample: 500 letters followed by one space is a text of
length 501, yet `create_todo` accepts it (its stripped length is 500), so
"every input text of length 501 fails with a client error" is false. -/
theorem create_length_501_counterexample :
    (List.replicate 500 'a' ++ [' ']).length = 501 ∧
    (create_todo (List.replicate 500 'a' ++ [' ']) emptyDB).isOk = true := by
  constructor
  · simp
  · rfl

/-- C5 (amended): every text whose length after stripping exceeds 500 is
rejected with a 400 and the stored rows are unchanged. -/
theorem create_overlong_rejected (db : DB) (t : List Char)
    (h : 500 < (pyStrip t).length) :
    create_todo t db = .error ⟨400, "Todo text cannot exceed 500 characters"⟩ ∧
    applyOp (Op.create t) db = db := by
  have hne : pyStrip t ≠ [] := by
    intro h0
    rw [h0] at h
    simp at h
  have ht : t.isEmpty = false := isEmpty_false_of_ne_nil (ne_nil_of_pyStrip_ne_nil hne)
  have hs : (pyStrip t).isEmpty = false := isEmpty_false_of_ne_nil hne
  have hc : create_todo t db =
      .error ⟨400, "Todo text cannot exceed 500 characters"⟩ := by
    unfold create_todo
    rw [ht, hs]
    simp [h]
  refine ⟨hc, ?_⟩
  simp only [applyOp]
  rw [hc]

set_option maxRecDepth 100000 in
/-- C5 (amended) witness: 501 letters with no surrounding whitespace. -/
theorem create_overlong_rejected_witness :
    500 < (pyStrip (List.replicate 501 'a')).length ∧
    (create_todo (List.replicate 501 'a') emptyDB =
       .error ⟨400, "Todo text cannot exceed 500 characters"⟩ ∧
     applyOp (Op.create (List.replicate 501 'a')) emptyDB = emptyDB) :=
  ⟨by decide, create_overlong_rejected emptyDB (List.replicate 501 'a') (by decide)⟩

/-- C2: a successful update changes exactly the supplied fields of the
addressed row — with only `completed` supplied the text is untouched, a
supplied text is stored stripped — keeps its id, and leaves the serial
counter, the row count, and every row with a different id unchanged; the
updated row is what a subsequent get-by-id returns. -/
theorem update_changes_only_supplied_fields (db : DB) (i : Nat)
    (u : TodoUpdate) (row row1 : TodoDB) (db1 : DB)
    (hfound : firstById i db = some row)
    (hok : update_todo i u db = .ok (row1, db1)) :
    row1.id = row.id ∧
    (u.text = none → row1.text = row.text) ∧
    (∀ s, u.text = some s → row1.text = pyStrip s) ∧
    (u.completed = none → row1.completed = row.completed) ∧
    (∀ b, u.completed = some b → row1.completed = b) ∧
    db1.nextId = db.nextId ∧
    db1.todos.length = db.todos.length ∧
    db1.todos.filter (fun t => !(t.id == i)) =
      db.todos.filter (fun t => !(t.id == i)) ∧
    get_todo i db1 = .ok row1 := by
  obtain ⟨row', hfound', happ, hdb1⟩ := update_todo_ok hok
  rw [hfound] at hfound'
  injection hfound' with hfound'
  subst hfound'
  obtain ⟨hid, htn, hts, hcn, hcs⟩ := applyUpdate_spec happ
  have hrowi : row.id = i := by
    have := List.find?_some hfound
    exact eq_of_beq this
  have hrow1i : row1.id = i := hid.trans hrowi
  subst hdb1
  refine ⟨hid, htn, fun s hs => (hts s hs).1, hcn, hcs, rfl, ?_, ?_, ?_⟩
  · exact setFirst_length _ _ _
  · exact filter_setFirst hrow1i
  · unfold get_todo firstById
    rw [find?_setFirst hrow1i (by exact hfound)]

/-- C2 witness: updating the single row of a one-row database with only
`completed=true` supplied. -/
theorem update_changes_only_supplied_fields_witness :
    firstById 1 ⟨[⟨1, ['a'], false⟩], 2⟩ = some ⟨1, ['a'], false⟩ ∧
    update_todo 1 ⟨none, some true⟩ ⟨[⟨1, ['a'], false⟩], 2⟩ =
      .ok (⟨1, ['a'], true⟩, ⟨[⟨1, ['a'], true⟩], 2⟩) ∧
    ((⟨1, ['a'], true⟩ : TodoDB).id = (⟨1, ['a'], false⟩ : TodoDB).id ∧
     ((⟨none, some true⟩ : TodoUpdate).text = none →
       (⟨1, ['a'], true⟩ : TodoDB).text = (⟨1, ['a'], false⟩ : TodoDB).text) ∧
     (∀ s, (⟨none, some true⟩ : TodoUpdate).text = some s →
       (⟨1, ['a'], true⟩ : TodoDB).text = pyStrip s) ∧
     ((⟨none, some true⟩ : TodoUpdate).completed = none →
       (⟨1, ['a'], true⟩ : TodoDB).completed =
         (⟨1, ['a'], false⟩ : TodoDB).completed) ∧
     (∀ b, (⟨none, some true⟩ : TodoUpdate).completed = some b →
       (⟨1, ['a'], true⟩ : TodoDB).completed = b) ∧
     (DB.mk [⟨1, ['a'], true⟩] 2).nextId = (DB.mk [⟨1, ['a'], false⟩] 2).nextId ∧
     (DB.mk [⟨1, ['a'], true⟩] 2).todos.length =
       (DB.mk [⟨1, ['a'], false⟩] 2).todos.length ∧
     (DB.mk [⟨1, ['a'], true⟩] 2).todos.filter (fun t => !(t.id == 1)) =
       (DB.mk [⟨1, ['a'], false⟩] 2).todos.filter (fun t => !(t.id == 1)) ∧
     get_todo 1 ⟨[⟨1, ['a'], true⟩], 2⟩ = .ok ⟨1, ['a'], true⟩) :=
  ⟨by decide, by rfl,
   update_changes_only_supplied_fields ⟨[⟨1, ['a'], false⟩], 2⟩ 1
     ⟨none, some true⟩ ⟨1, ['a'], false⟩ ⟨1, ['a'], true⟩
     ⟨[⟨1, ['a'], true⟩], 2⟩ (by decide) (by rfl)⟩

/-- C7: after a successful delete of an id from a state with pairwise
distinct ids, get-by-id on that id yields 404, a repeated delete of the
same id also yields 404, and the failed repeat leaves storage unchanged. -/
theorem delete_then_get_notfound (db : DB) (i : Nat) (msg : String)
    (db1 : DB)
    (hdist : db.todos.Pairwise (fun a b => a.id ≠ b.id))
    (hok : delete_todo i db = .ok (msg, db1)) :
    get_todo i db1 = .error ⟨404, "Todo not found"⟩ ∧
    delete_todo i db1 = .error ⟨404, "Todo not found"⟩ ∧
    applyOp (Op.delete i) db1 = db1 := by
  obtain ⟨row, hfound, hmsg, hdb1⟩ := delete_todo_ok hok
  subst hdb1
  have hnone : firstById i ⟨eraseFirst (fun t => t.id == i) db.todos, db.nextId⟩ = none := by
    unfold firstById
    rw [List.find?_eq_none]
    intro t ht
    have := mem_eraseFirst_id hdist t ht
    simp only [beq_iff_eq]
    exact this
  have hget : get_todo i ⟨eraseFirst (fun t => t.id == i) db.todos, db.nextId⟩ =
      .error ⟨404, "Todo not found"⟩ := by
    unfold get_todo
    rw [hnone]
  have hdel : delete_todo i ⟨eraseFirst (fun t => t.id == i) db.todos, db.nextId⟩ =
      .error ⟨404, "Todo not found"⟩ := by
    unfold delete_todo
    rw [hnone]
  refine ⟨hget, hdel, ?_⟩
  simp only [applyOp]
  rw [hdel]

/-- C7 witness: deleting the only row of a one-row database. -/
theorem delete_then_get_notfound_witness :
    (DB.mk [⟨1, ['a'], false⟩] 2).todos.Pairwise (fun a b => a.id ≠ b.id) ∧
    delete_todo 1 ⟨[⟨1, ['a'], false⟩], 2⟩ =
      .ok ("Todo deleted successfully", ⟨[], 2⟩) ∧
    (get_todo 1 ⟨[], 2⟩ = .error ⟨404, "Todo not found"⟩ ∧
     delete_todo 1 ⟨[], 2⟩ = .error ⟨404, "Todo not found"⟩ ∧
     applyOp (Op.delete 1) ⟨[], 2⟩ = ⟨[], 2⟩) :=
  ⟨by decide, by rfl,
   delete_then_get_notfound ⟨[⟨1, ['a'], false⟩], 2⟩ 1
     "Todo deleted successfully" ⟨[], 2⟩ (by decide) (by rfl)⟩

/-! ### Invariant preservation and id freshness -/

lemma inv_create (db : DB) (t : List Char) (h : Inv db) :
    Inv (applyOp (Op.create t) db) := by
  obtain ⟨hpos, hids, hdist, htext⟩ := h
  cases hc : create_todo t db with
  | error e =>
    simp only [applyOp]
    rw [hc]
    exact ⟨hpos, hids, hdist, htext⟩
  | ok p =>
    obtain ⟨row, db1⟩ := p
    obtain ⟨hrow, hdb1, hne, hlen⟩ := create_todo_ok hc
    simp only [applyOp]
    rw [hc]
    subst hdb1
    refine ⟨Nat.lt_succ_of_lt hpos, ?_, ?_, ?_⟩
    · intro t1 ht1
      rcases List.mem_append.mp ht1 with hold | hnew
      · exact ⟨(hids t1 hold).1, Nat.lt_succ_of_lt (hids t1 hold).2⟩
      · rw [List.mem_singleton.mp hnew]
        exact ⟨hpos, Nat.lt_succ_self _⟩
    · rw [List.pairwise_append]
      refine ⟨hdist, List.pairwise_singleton _ _, ?_⟩
      intro a ha b hb
      rw [List.mem_singleton.mp hb]
      exact Nat.ne_of_lt (hids a ha).2
    · intro t1 ht1
      rcases List.mem_append.mp ht1 with hold | hnew
      · exact htext t1 hold
      · rw [List.mem_singleton.mp hnew]
        exact ⟨hne, hlen⟩

lemma inv_update (db : DB) (i : Nat) (u : TodoUpdate) (h : Inv db) :
    Inv (applyOp (Op.update i u) db) := by
  obtain ⟨hpos, hids, hdist, htext⟩ := h
  cases hc : update_todo i u db with
  | error e =>
    simp only [applyOp]
    rw [hc]
    exact ⟨hpos, hids, hdist, htext⟩
  | ok p =>
    obtain ⟨row1, db1⟩ := p
    obtain ⟨row, hfound, happ, hdb1⟩ := update_todo_ok hc
    obtain ⟨hid, htn, hts, hcn, hcs⟩ := applyUpdate_spec happ
    have hrowmem : row ∈ db.todos := List.mem_of_find?_eq_some hfound
    have hrowi : row.id = i := by
      have h0 : db.todos.find? (fun t => t.id == i) = some row := hfound
      have hb := List.find?_some h0
      exact eq_of_beq hb
    simp only [applyOp]
    rw [hc]
    subst hdb1
    refine ⟨hpos, ?_, pairwise_setFirst (hid.trans hrowi) hdist, ?_⟩
    · intro t1 ht1
      rcases mem_setFirst ht1 with hold | ⟨rfl, _⟩
      · exact hids t1 hold
      · rw [hid]
        exact hids row hrowmem
    · intro t1 ht1
      rcases mem_setFirst ht1 with hold | ⟨rfl, _⟩
      · exact htext t1 hold
      · cases hut : u.text with
        | none =>
          rw [htn hut]
          exact htext row hrowmem
        | some sx =>
          obtain ⟨hteq, hne, hlen⟩ := hts sx hut
          rw [hteq]
          exact ⟨hne, hlen⟩

lemma inv_delete (db : DB) (i : Nat) (h : Inv db) :
    Inv (applyOp (Op.delete i) db) := by
  obtain ⟨hpos, hids, hdist, htext⟩ := h
  cases hc : delete_todo i db with
  | error e =>
    simp only [applyOp]
    rw [hc]
    exact ⟨hpos, hids, hdist, htext⟩
  | ok p =>
    obtain ⟨msg, db1⟩ := p
    obtain ⟨row, hfound, hmsg, hdb1⟩ := delete_todo_ok hc
    simp only [applyOp]
    rw [hc]
    subst hdb1
    have hsub := eraseFirst_sublist (fun t => t.id == i) db.todos
    refine ⟨hpos, ?_, hdist.sublist hsub, ?_⟩
    · intro t1 ht1
      exact hids t1 (hsub.subset ht1)
    · intro t1 ht1
      exact htext t1 (hsub.subset ht1)

lemma inv_applyOp (op : Op) (db : DB) (h : Inv db) : Inv (applyOp op db) := by
  cases op with
  | create t => exact inv_create db t h
  | update i u => exact inv_update db i u h
  | delete i => exact inv_delete db i h

lemma nextId_mono (op : Op) (db : DB) :
    db.nextId ≤ (applyOp op db).nextId := by
  cases op with
  | create t =>
    cases hc : create_todo t db with
    | error e =>
      simp only [applyOp]
      rw [hc]
    | ok p =>
      obtain ⟨row, db1⟩ := p
      obtain ⟨_, hdb1, _, _⟩ := create_todo_ok hc
      simp only [applyOp]
      rw [hc]
      subst hdb1
      exact Nat.le_succ _
  | update i u =>
    cases hc : update_todo i u db with
    | error e =>
      simp only [applyOp]
      rw [hc]
    | ok p =>
      obtain ⟨row1, db1⟩ := p
      obtain ⟨row, _, _, hdb1⟩ := update_todo_ok hc
      simp only [applyOp]
      rw [hc]
      subst hdb1
      exact Nat.le_refl _
  | delete i =>
    cases hc : delete_todo i db with
    | error e =>
      simp only [applyOp]
      rw [hc]
    | ok p =>
      obtain ⟨msg, db1⟩ := p
      obtain ⟨row, _, _, hdb1⟩ := delete_todo_ok hc
      simp only [applyOp]
      rw [hc]
      subst hdb1
      exact Nat.le_refl _

lemma mem_applyOp_id (op : Op) (db : DB) (t1 : TodoDB)
    (ht : t1 ∈ (applyOp op db).todos) :
    (∃ r ∈ db.todos, r.id = t1.id) ∨ t1.id = db.nextId := by
  cases op with
  | create t =>
    cases hc : create_todo t db with
    | error e =>
      simp only [applyOp] at ht
      rw [hc] at ht
      exact Or.inl ⟨t1, ht, rfl⟩
    | ok p =>
      obtain ⟨row, db1⟩ := p
      obtain ⟨hrow, hdb1, _, _⟩ := create_todo_ok hc
      simp only [applyOp] at ht
      rw [hc] at ht
      subst hdb1
      rcases List.mem_append.mp ht with hold | hnew
      · exact Or.inl ⟨t1, hold, rfl⟩
      · rw [List.mem_singleton.mp hnew]
        exact Or.inr rfl
  | update i u =>
    cases hc : update_todo i u db with
    | error e =>
      simp only [applyOp] at ht
      rw [hc] at ht
      exact Or.inl ⟨t1, ht, rfl⟩
    | ok p =>
      obtain ⟨row1, db1⟩ := p
      obtain ⟨row, hfound, happ, hdb1⟩ := update_todo_ok hc
      obtain ⟨hid, _, _, _, _⟩ := applyUpdate_spec happ
      simp only [applyOp] at ht
      rw [hc] at ht
      subst hdb1
      rcases mem_setFirst ht with hold | ⟨rfl, _⟩
      · exact Or.inl ⟨t1, hold, rfl⟩
      · exact Or.inl ⟨row, List.mem_of_find?_eq_some hfound, hid.symm⟩
  | delete i =>
    cases hc : delete_todo i db with
    | error e =>
      simp only [applyOp] at ht
      rw [hc] at ht
      exact Or.inl ⟨t1, ht, rfl⟩
    | ok p =>
      obtain ⟨msg, db1⟩ := p
      obtain ⟨row, _, _, hdb1⟩ := delete_todo_ok hc
      simp only [applyOp] at ht
      rw [hc] at ht
      subst hdb1
      exact Or.inl ⟨t1, (eraseFirst_sublist _ _).subset ht, rfl⟩

lemma runOps_cons (op : Op) (ops : List Op) (db : DB) :
    runOps (op :: ops) db = runOps ops (applyOp op db) := rfl

lemma runOps_id_bound (ops : List Op) (db : DB) (t1 : TodoDB)
    (ht : t1 ∈ (runOps ops db).todos) :
    (∃ r ∈ db.todos, r.id = t1.id) ∨ db.nextId ≤ t1.id := by
  induction ops generalizing db with
  | nil => exact Or.inl ⟨t1, ht, rfl⟩
  | cons op ops ih =>
    rw [runOps_cons] at ht
    rcases ih (applyOp op db) ht with ⟨r, hr, hrid⟩ | hle
    · rcases mem_applyOp_id op db r hr with ⟨r0, hr0, hid0⟩ | hnew
      · exact Or.inl ⟨r0, hr0, hid0.trans hrid⟩
      · exact Or.inr (hrid ▸ hnew ▸ Nat.le_refl _)
    · exact Or.inr (Nat.le_trans (nextId_mono op db) hle)

/-- C3: every operation preserves the storage invariant (positive,
sequence-bounded, pairwise-distinct ids; non-empty stored texts of at most
500 characters; `completed` always a defined boolean, carried by the
type), and an id deleted from an invariant state is never carried by any
row of any later state, however many further requests run — in particular
it is never reassigned to a later-created item. -/
theorem storage_invariant_preserved (db : DB) (h : Inv db) :
    (∀ op, Inv (applyOp op db)) ∧
    (∀ i row, firstById i db = some row →
      ∀ ops t1, t1 ∈ (runOps ops (applyOp (Op.delete i) db)).todos →
        t1.id ≠ i) := by
  refine ⟨fun op => inv_applyOp op db h, ?_⟩
  obtain ⟨hpos, hids, hdist, htext⟩ := h
  intro i row hfound ops t1 ht1 hti
  have hdel : delete_todo i db =
      .ok ("Todo deleted successfully",
        ⟨eraseFirst (fun t => t.id == i) db.todos, db.nextId⟩) := by
    unfold delete_todo
    rw [hfound]
  have happly : applyOp (Op.delete i) db =
      ⟨eraseFirst (fun t => t.id == i) db.todos, db.nextId⟩ := by
    simp only [applyOp]
    rw [hdel]
  rw [happly] at ht1
  have hrowi : row.id = i := by
    have h0 : db.todos.find? (fun t => t.id == i) = some row := hfound
    have hb := List.find?_some h0
    exact eq_of_beq hb
  have hlt : i < db.nextId := by
    have := (hids row (List.mem_of_find?_eq_some hfound)).2
    rw [hrowi] at this
    exact this
  rcases runOps_id_bound ops _ t1 ht1 with ⟨r, hr, hrid⟩ | hle
  · exact (mem_eraseFirst_id hdist r hr) (hrid.trans hti)
  · rw [hti] at hle
    exact absurd hle (Nat.not_le.mpr hlt)

/-- C3 witness: a one-row invariant-satisfying database. -/
theorem storage_invariant_preserved_witness :
    Inv ⟨[⟨1, ['a'], false⟩], 2⟩ ∧
    ((∀ op, Inv (applyOp op ⟨[⟨1, ['a'], false⟩], 2⟩)) ∧
     (∀ i row, firstById i ⟨[⟨1, ['a'], false⟩], 2⟩ = some row →
       ∀ ops t1,
         t1 ∈ (runOps ops (applyOp (Op.delete i) ⟨[⟨1, ['a'], false⟩], 2⟩)).todos →
         t1.id ≠ i)) :=
  ⟨by decide, storage_invariant_preserved ⟨[⟨1, ['a'], false⟩], 2⟩ (by decide)⟩

lemma runOps_length (ops : List Op) :
    ∀ db : DB, (∀ op ∈ ops, isCreate op = true ∨ isDelete op = true) →
      allOk ops db = true →
      ((runOps ops db).todos.length : ℤ) =
        db.todos.length + ops.countP isCreate - ops.countP isDelete := by
  induction ops with
  | nil =>
    intro db _ _
    simp [runOps]
  | cons op ops ih =>
    intro db hkinds hok
    rw [allOk, Bool.and_eq_true] at hok
    have htail := ih (applyOp op db)
      (fun o ho => hkinds o (List.mem_cons_of_mem _ ho)) hok.2
    rw [runOps_cons, htail]
    rcases hkinds op (List.mem_cons_self _ _) with hcr | hde
    · cases op with
      | create t =>
        have hsucc : (create_todo t db).isOk = true := by
          simpa [opOk] using hok.1
        cases hc : create_todo t db with
        | error e =>
          rw [hc] at hsucc
          simp [Except.isOk, Except.toBool] at hsucc
        | ok p =>
          obtain ⟨row, db1⟩ := p
          obtain ⟨_, hdb1, _, _⟩ := create_todo_ok hc
          have happly : applyOp (Op.create t) db = db1 := by
            simp only [applyOp]
            rw [hc]
          rw [happly, hdb1]
          simp [List.countP_cons, isCreate, isDelete]
          ring
      | update i u => simp [isCreate] at hcr
      | delete i => simp [isDelete, isCreate] at hcr
    · cases op with
      | delete i =>
        have hsucc : (delete_todo i db).isOk = true := by
          simpa [opOk] using hok.1
        cases hc : delete_todo i db with
        | error e =>
          rw [hc] at hsucc
          simp [Except.isOk, Except.toBool] at hsucc
        | ok p =>
          obtain ⟨msg, db1⟩ := p
          obtain ⟨row, hfound, _, hdb1⟩ := delete_todo_ok hc
          have hlen : (eraseFirst (fun t => t.id == i) db.todos).length + 1 =
              db.todos.length := by
            have h0 : db.todos.find? (fun t => t.id == i) = some row := hfound
            exact eraseFirst_length h0
          have happly : applyOp (Op.delete i) db = db1 := by
            simp only [applyOp]
            rw [hc]
          rw [happly, hdb1]
          simp only [List.countP_cons, isCreate, isDelete, if_true, if_false]
          push_cast
          omega
      | update i u => simp [isDelete] at hde
      | create t => simp [isDelete, isCreate] at hde

lemma runOps_rows_created (ops : List Op) :
    ∀ db : DB, (∀ op ∈ ops, isCreate op = true ∨ isDelete op = true) →
      ∀ t1 ∈ (runOps ops db).todos,
        t1 ∈ db.todos ∨
        ∃ s, Op.create s ∈ ops ∧ t1.text = pyStrip s ∧ t1.completed = false := by
  induction ops with
  | nil =>
    intro db _ t1 ht1
    exact Or.inl ht1
  | cons op ops ih =>
    intro db hkinds t1 ht1
    rw [runOps_cons] at ht1
    rcases ih (applyOp op db) (fun o ho => hkinds o (List.mem_cons_of_mem _ ho))
        t1 ht1 with hmem | ⟨s, hs, hrest⟩
    · rcases hkinds op (List.mem_cons_self _ _) with hcr | hde
      · cases op with
        | create tx =>
          cases hc : create_todo tx db with
          | error e =>
            simp only [applyOp] at hmem
            rw [hc] at hmem
            exact Or.inl hmem
          | ok p =>
            obtain ⟨row, db1⟩ := p
            obtain ⟨_, hdb1, _, _⟩ := create_todo_ok hc
            simp only [applyOp] at hmem
            rw [hc] at hmem
            subst hdb1
            rcases List.mem_append.mp hmem with hold | hnew
            · exact Or.inl hold
            · rw [List.mem_singleton.mp hnew]
              exact Or.inr ⟨tx, List.mem_cons_self _ _, rfl, rfl⟩
        | update i u => simp [isCreate] at hcr
        | delete i => simp [isCreate] at hcr
      · cases op with
        | delete i =>
          cases hc : delete_todo i db with
          | error e =>
            simp only [applyOp] at hmem
            rw [hc] at hmem
            exact Or.inl hmem
          | ok p =>
            obtain ⟨msg, db1⟩ := p
            obtain ⟨row, _, _, hdb1⟩ := delete_todo_ok hc
            simp only [applyOp] at hmem
            rw [hc] at hmem
            subst hdb1
            exact Or.inl ((eraseFirst_sublist _ _).subset hmem)
        | update i u => simp [isDelete] at hde
        | create tx => simp [isDelete, isCreate] at hde
    · exact Or.inr ⟨s, List.mem_cons_of_mem _ hs, hrest⟩

/-- C6: running any sequence of successful creates and deletes changes the
row count by exactly (number of creates − number of deletes), and each
listed row reflects the last state applied to it: every row surviving the
run is either an initial row, byte-identical, or verbatim the row produced
by one of the creates (stripped text, `completed=false`); moreover a
successful create appends its row at the end of the listing (insertion
order) and a successful delete removes only rows carrying the addressed
id, leaving every other row byte-identical in place. -/
theorem list_returns_all_in_insertion_order (db : DB) (ops : List Op)
    (hkinds : ∀ op ∈ ops, isCreate op = true ∨ isDelete op = true)
    (hok : allOk ops db = true) :
    ((get_todos (runOps ops db)).length : ℤ) =
      (get_todos db).length + ops.countP isCreate - ops.countP isDelete ∧
    (∀ t1 ∈ get_todos (runOps ops db),
      t1 ∈ get_todos db ∨
      ∃ s, Op.create s ∈ ops ∧ t1.text = pyStrip s ∧ t1.completed = false) ∧
    (∀ (d : DB) (t : List Char) (row : TodoDB) (d1 : DB),
      create_todo t d = .ok (row, d1) →
      get_todos d1 = get_todos d ++ [row]) ∧
    (∀ (d : DB) (i : Nat) (msg : String) (d1 : DB),
      delete_todo i d = .ok (msg, d1) →
      (∀ t1 ∈ get_todos d1, t1 ∈ get_todos d) ∧
      (get_todos d1).filter (fun t => !(t.id == i)) =
        (get_todos d).filter (fun t => !(t.id == i))) := by
  refine ⟨runOps_length ops db hkinds hok,
          runOps_rows_created ops db hkinds, ?_, ?_⟩
  · intro d t row d1 hc
    obtain ⟨hrow, hdb1, _, _⟩ := create_todo_ok hc
    rw [hdb1, hrow]
    rfl
  · intro d i msg d1 hc
    obtain ⟨row, hfound, _, hdb1⟩ := delete_todo_ok hc
    subst hdb1
    exact ⟨fun t1 ht1 => (eraseFirst_sublist _ _).subset ht1, filter_eraseFirst⟩

/-- C6 witness: two creates followed by one delete on the fresh database
leave 2 − 1 = 1 row, every surviving row being verbatim a created row. -/
theorem list_returns_all_in_insertion_order_witness :
    (∀ op ∈ [Op.create ['a'], Op.create ['b'], Op.delete 1],
      isCreate op = true ∨ isDelete op = true) ∧
    allOk [Op.create ['a'], Op.create ['b'], Op.delete 1] emptyDB = true ∧
    (((get_todos (runOps [Op.create ['a'], Op.create ['b'], Op.delete 1]
        emptyDB)).length : ℤ) =
      (get_todos emptyDB).length +
        ([Op.create ['a'], Op.create ['b'], Op.delete 1].countP isCreate) -
        ([Op.create ['a'], Op.create ['b'], Op.delete 1].countP isDelete) ∧
     (∀ t1 ∈ get_todos (runOps [Op.create ['a'], Op.create ['b'], Op.delete 1]
        emptyDB),
       t1 ∈ get_todos emptyDB ∨
       ∃ s, Op.create s ∈ [Op.create ['a'], Op.create ['b'], Op.delete 1] ∧
         t1.text = pyStrip s ∧ t1.completed = false) ∧
     (∀ (d : DB) (t : List Char) (row : TodoDB) (d1 : DB),
       create_todo t d = .ok (row, d1) →
       get_todos d1 = get_todos d ++ [row]) ∧
     (∀ (d : DB) (i : Nat) (msg : String) (d1 : DB),
       delete_todo i d = .ok (msg, d1) →
       (∀ t1 ∈ get_todos d1, t1 ∈ get_todos d) ∧
       (get_todos d1).filter (fun t => !(t.id == i)) =
         (get_todos d).filter (fun t => !(t.id == i)))) :=
  ⟨by decide, by decide,
   list_returns_all_in_insertion_order emptyDB
     [Op.create ['a'], Op.create ['b'], Op.delete 1] (by decide) (by decide)⟩

/-! ### Startup and request-time retry behaviour -/

lemma getDbGo_succ (f : Nat → Bool) (n k : Nat) :
    getDbGo f (n + 1) k =
      if f k then (1, true)
      else if n = 0 then (1, false)
      else ((getDbGo f n (k + 1)).1 + 1, (getDbGo f n (k + 1)).2) := rfl

/-- C8 counterexample: when the first session acquisition of a request
fails and the second succeeds, `get_db` performs 2 attempts while serving
that single request, so "no database operation is ever retried at request
time" is false as stated. -/
theorem get_db_retries_counterexample :
    (get_db (fun k => decide (1 ≤ k))).1 = 2 ∧
    ¬ (∀ f : Nat → Bool, (get_db f).1 ≤ 1) := by
  constructor
  · rfl
  · intro hall
    have h2 := hall (fun k => decide (1 ≤ k))
    have he : (get_db (fun k => decide (1 ≤ k))).1 = 2 := rfl
    rw [he] at h2
    exact absurd h2 (by norm_num)

/-- C8 (amended): request-time session acquisition in `get_db` is itself
retried — between 1 and 3 attempts are performed per request — and the
503 is raised exactly when all three attempts fail; retries beyond the
third do not happen. -/
theorem get_db_bounded_retries (f : Nat → Bool) :
    1 ≤ (get_db f).1 ∧ (get_db f).1 ≤ 3 ∧
    ((get_db f).2 = false ↔ (f 0 = false ∧ f 1 = false ∧ f 2 = false)) := by
  have e3 := getDbGo_succ f 2 0
  have e2 := getDbGo_succ f 1 1
  have e1 := getDbGo_succ f 0 2
  norm_num at e3 e2 e1
  cases h0 : f 0 <;> cases h1 : f 1 <;> cases h2 : f 2 <;>
    simp [get_db, e3, e2, e1, h0, h1, h2]

lemma initGo_succ (o : Nat → Bool) (n : Nat) (d : ℚ) (k : Nat) :
    initGo o (n + 1) d k =
      if o k then ([], true)
      else if n = 0 then ([], false)
      else (d :: (initGo o n (min (d * (3 / 2)) 30) (k + 1)).1,
            (initGo o n (min (d * (3 / 2)) 30) (k + 1)).2) := rfl

lemma delaySeq_le_30 : ∀ n, delaySeq n ≤ 30
  | 0 => by norm_num [delaySeq]
  | n + 1 => min_le_right _ _

lemma initGo_all_fail (outcome : Nat → Bool) :
    ∀ m i k, (∀ j, j < k + (m + 1) → outcome j = false) →
      initGo outcome (m + 1) (delaySeq i) k =
        ((List.range m).map (fun n => delaySeq (i + n)), false) := by
  intro m
  induction m with
  | zero =>
    intro i k hf
    rw [initGo_succ, hf k (by omega)]
    simp
  | succ m ih =>
    intro i k hf
    rw [initGo_succ, hf k (by omega)]
    simp only [Bool.false_eq_true, if_false]
    rw [if_neg (Nat.succ_ne_zero m)]
    have hd : min (delaySeq i * (3 / 2)) 30 = delaySeq (i + 1) := rfl
    rw [hd, ih (i + 1) (k + 1) (fun j hj => hf j (by omega))]
    rw [List.range_succ_eq_map, List.map_cons, List.map_map]
    refine congrArg (fun l => (l, false)) ?_
    refine congrArg₂ List.cons (by simp) ?_
    refine List.map_congr_left ?_
    intro a _
    simp only [Function.comp_apply]
    congr 1
    omega

/-- C9: with every connection attempt failing, `init_database` performs
its fixed bound of 10 attempts, sleeping 9 times with delays that start at
2, are multiplied by 1.5 after each failed attempt and are capped at 30 —
concretely [2, 3, 4.5, 6.75, 10.125, 15.1875, 22.78125, 30, 30] — and then
raises instead of returning an engine. -/
theorem init_database_backoff (outcome : Nat → Bool)
    (hfail : ∀ k, k < 10 → outcome k = false) :
    init_database outcome = ((List.range 9).map delaySeq, false) ∧
    delaySeq 0 = 2 ∧
    (∀ n, delaySeq (n + 1) = min (delaySeq n * (3 / 2)) 30) ∧
    (∀ n, delaySeq n ≤ 30) ∧
    (List.range 9).map delaySeq =
      [2, 3, 9/2, 27/4, 81/8, 243/16, 729/32, 30, 30] := by
  refine ⟨?_, rfl, fun n => rfl, delaySeq_le_30, ?_⟩
  · have h := initGo_all_fail outcome 9 0 0 (fun j hj => hfail j (by omega))
    have h10 : init_database outcome = initGo outcome (9 + 1) (delaySeq 0) 0 := rfl
    rw [h10, h]
    simp
  · norm_num [List.range_succ, delaySeq]

/-- C9 witness: the always-failing outcome sequence. -/
theorem init_database_backoff_witness :
    (∀ k, k < 10 → (fun _ : Nat => false) k = false) ∧
    (init_database (fun _ => false) = ((List.range 9).map delaySeq, false) ∧
     delaySeq 0 = 2 ∧
     (∀ n, delaySeq (n + 1) = min (delaySeq n * (3 / 2)) 30) ∧
     (∀ n, delaySeq n ≤ 30) ∧
     (List.range 9).map delaySeq =
       [2, 3, 9/2, 27/4, 81/8, 243/16, 729/32, 30, 30]) :=
  ⟨fun _ _ => rfl, init_database_backoff (fun _ => false) (fun _ _ => rfl)⟩

/-- C10: updating an absent id yields 404 and leaves the state unchanged,
for every update payload — in particular also when the supplied text is
invalid, so the not-found check takes precedence over text validation. -/
theorem update_absent_id_notfound (db : DB) (i : Nat) (u : TodoUpdate)
    (h : firstById i db = none) :
    update_todo i u db = .error ⟨404, "Todo not found"⟩ ∧
    applyOp (Op.update i u) db = db := by
  have hc : update_todo i u db = .error ⟨404, "Todo not found"⟩ := by
    unfold update_todo
    rw [h]
  refine ⟨hc, ?_⟩
  simp only [applyOp]
  rw [hc]

/-- C10 witness: an absent id together with an invalid (whitespace-only)
text still yields the 404, not the 400. -/
theorem update_absent_id_notfound_witness :
    firstById 1 emptyDB = none ∧
    (update_todo 1 ⟨some [' '], none⟩ emptyDB = .error ⟨404, "Todo not found"⟩ ∧
     applyOp (Op.update 1 ⟨some [' '], none⟩) emptyDB = emptyDB) :=
  ⟨by decide, update_absent_id_notfound emptyDB 1 ⟨some [' '], none⟩ (by decide)⟩

end TodoApp
